import Mathlib

/-!
# Spoverlay core — a shallow embedding in Lean 4

This file embeds the algorithmic core of the Spoverlay desktop overlay
(`src/overlay/core/`) and proves the testable properties stated in its
specification.

* `overlay/core/models.py` — the `NowPlaying` value type and the slice of the
  application configuration the client reads.
* `overlay/core/spotify_client.py` — the polling client (`SpotifyClient`):
  single fetch with retry (`get_current`), the polling loop
  (`_run_polling_loop`), `start_polling`, `stop`, `relogin`,
  `on_config_changed`.
* `overlay/core/hotkey_manager.py` — hotkey-string parsing and the
  held-keys/target-keys press logic of `HotkeyManager`.
* `overlay/core/ipc_listener.py` — the UNIX-socket activation dispatcher
  (`IpcListener`): its accept loop, `stop`, and socket-file lifecycle.

Background threads are modelled by making the data each loop consumes
explicit: a polling loop run is a function of the list of fetch results it
sees before the stop event is set, and the socket accept loop is a function
of the interleaved list of accept outcomes and stop-flag writes.  Emitted Qt
signals become explicit lists of emission values.
-/

namespace Spoverlay

/-- `NowPlaying` from `overlay/core/models.py`: a frozen dataclass, so two
values are equal iff every field matches.  `progress_ms`/`duration_ms` are
Python ints, embedded as `Int`. -/
structure NowPlaying where
  title : String
  artist : String
  album : String
  album_art_url : Option String
  is_playing : Bool
  progress_ms : Int
  duration_ms : Int
  deriving DecidableEq, Repr

/-- The configuration fields `SpotifyClient` reads (`config.client.client_id`,
`config.client.redirect_uri`, `config.client.poll_interval_ms` in
`spotify_client.py`). -/
structure ClientConfig where
  client_id : String
  redirect_uri : String
  poll_interval_ms : Int
  deriving DecidableEq, Repr

/-- `max(0.25, poll_interval_ms / 1000.0)` — the clamped poll interval in
seconds, computed in `SpotifyClient.__init__` and again in
`on_config_changed`.  Real arithmetic on these small decimals is exact, so
`ℚ` is a faithful embedding of the Python float computation. -/
def clampPollInterval (ms : Int) : ℚ :=
  max (1 / 4) ((ms : ℚ) / 1000)

/-- `idle_backoff_seconds = 2.0` from `_run_polling_loop`. -/
def idle_backoff_seconds : ℚ := 2

/-- The Qt signals `SpotifyClient` emits towards the UI:
`now_playing_updated` (payload `NowPlaying | None`) and
`clear_ui_requested`. -/
inductive Emission where
  | nowPlayingUpdated (state : Option NowPlaying)
  | clearUiRequested
  deriving DecidableEq, Repr

/-- The mutable state of a `SpotifyClient` instance, one field per Python
attribute that the embedded methods read or write:
`_sp` is collapsed to the `Bool` "the spotipy client object is initialized";
`running` stands for "`_thread` is alive"; `threads_started` counts how many
`threading.Thread(...).start()` calls `start_polling` has performed;
`cache_exists` is whether the token-cache file exists on disk. -/
structure ClientState where
  config : ClientConfig
  sp : Bool
  running : Bool
  threads_started : Nat
  last_state : Option NowPlaying
  poll_interval : ℚ
  cache_exists : Bool
  deriving DecidableEq, Repr

/-- `SpotifyClient.__init__`: `_last_state = None`, poll interval clamped,
and `_sp` initialized iff a client id is present (`if not
self._config.client.client_id: ... else: self._initialize_client()`;
`SpotifyPKCE`/`spotipy.Spotify` construction itself does not fail). -/
def mkSpotifyClient (config : ClientConfig) (cache_exists : Bool) : ClientState :=
  { config := config
    sp := config.client_id != ""
    running := false
    threads_started := 0
    last_state := none
    poll_interval := clampPollInterval config.poll_interval_ms
    cache_exists := cache_exists }

/-- `SpotifyClient.is_configured`: `bool(self._config.client.client_id)`. -/
def is_configured (st : ClientState) : Bool :=
  st.config.client_id != ""

/-- `SpotifyClient.start_polling`: refuse when `_sp` is missing; no-op when
the thread is already alive; otherwise clear the stop event and start one
new polling thread. -/
def start_polling (st : ClientState) : ClientState :=
  if st.sp = false then st
  else if st.running then st
  else { st with running := true, threads_started := st.threads_started + 1 }

/-- `SpotifyClient.stop`: set the stop event and join the thread (bounded by
2 s); afterwards the loop is no longer running. -/
def stop (st : ClientState) : ClientState :=
  { st with running := false }

/-- `SpotifyClient.on_config_changed`: store the new config and re-clamp the
poll interval. -/
def on_config_changed (st : ClientState) (new_config : ClientConfig) : ClientState :=
  { st with config := new_config
            poll_interval := clampPollInterval new_config.poll_interval_ms }

/-- One outcome of `self._sp.current_user_playing_track()` plus the parsing
that follows it in `get_current`: a successful call yields `some snapshot`
or `none` ("nothing playing", the `data`/`item` missing case), a
`spotipy.SpotifyException` hits the first `except` arm, any other exception
hits the second. -/
inductive FetchOutcome where
  | ok (result : Option NowPlaying)
  | spotifyError
  | otherError
  deriving DecidableEq, Repr

/-- Whether the outcome is one of the two exception arms. -/
def FetchOutcome.isErr : FetchOutcome → Bool
  | .ok _ => false
  | .spotifyError => true
  | .otherError => true

/-- The `for attempt in range(2)` loop of `get_current`, run on the list of
outcomes the remote call would produce on successive attempts.  Returns the
value returned to the caller, the number of attempts made, and the list of
`time.sleep(1)` backoff sleeps performed (in seconds, in order; only the
`SpotifyException` arm sleeps).  Falling off the loop returns `None`. -/
def attemptLoop : List FetchOutcome → Option NowPlaying × Nat × List ℚ
  | [] => (none, 0, [])
  | outcome :: rest =>
    match outcome with
    | .ok r => (r, 1, [])
    | .spotifyError =>
      let t := attemptLoop rest
      (t.1, t.2.1 + 1, 1 :: t.2.2)
    | .otherError =>
      let t := attemptLoop rest
      (t.1, t.2.1 + 1, t.2.2)

/-- `SpotifyClient.get_current`: `None` immediately when `_sp` is missing,
otherwise the two-attempt loop on the outcomes of the two possible calls. -/
def get_current (sp : Bool) (a0 a1 : FetchOutcome) : Option NowPlaying × Nat × List ℚ :=
  if sp then attemptLoop [a0, a1] else (none, 0, [])

/-- `sleep_duration = idle_backoff_seconds if (current_state is None or not
current_state.is_playing) else self._poll_interval` from
`_run_polling_loop`. -/
def sleepDuration (poll_interval : ℚ) (current_state : Option NowPlaying) : ℚ :=
  match current_state with
  | none => idle_backoff_seconds
  | some s => if s.is_playing then poll_interval else idle_backoff_seconds

/-- `SpotifyClient._run_polling_loop`, run on the list of fetch results the
loop sees before the stop event is set.  Each iteration: bail out if `_sp`
has gone missing; emit the fetched state and update `_last_state` iff it
differs from `_last_state`; sleep for `sleepDuration`.  Returns the emitted
`now_playing_updated` payloads in order, the final `_last_state`, and the
sleeps performed. -/
def runPollingLoop (sp : Bool) (poll_interval : ℚ) :
    Option NowPlaying → List (Option NowPlaying) →
    List (Option NowPlaying) × Option NowPlaying × List ℚ
  | last, [] => ([], last, [])
  | last, fetched :: rest =>
    if sp = false then ([], last, [])
    else
      let emitted : List (Option NowPlaying) := if fetched ≠ last then [fetched] else []
      let next_last : Option NowPlaying := if fetched ≠ last then fetched else last
      let t := runPollingLoop sp poll_interval next_last rest
      (emitted ++ t.1, t.2.1, sleepDuration poll_interval fetched :: t.2.2)

/-- `SpotifyClient.relogin`: no-op without an initialized client; otherwise
stop the loop, emit `clear_ui_requested`, reset `_last_state`, delete the
token-cache file, and restart polling.  Returns the new state and the
emissions of the call itself. -/
def relogin (st : ClientState) : ClientState × List Emission :=
  if st.sp = false then (st, [])
  else
    let st1 := stop st
    let st2 := { st1 with last_state := none, cache_exists := false }
    (start_polling st2, [Emission.clearUiRequested])

/-- A `relogin` call followed by a run of the restarted polling loop on the
fetch results `fetches`: the combined emission stream the UI observes. -/
def reloginThenPoll (st : ClientState) (fetches : List (Option NowPlaying)) : List Emission :=
  let r := relogin st
  r.2 ++ (runPollingLoop r.1.sp r.1.poll_interval r.1.last_state fetches).1.map
    Emission.nowPlayingUpdated

/-- A concrete playing snapshot, used to instantiate proved theorems. -/
def sampleTrackA : NowPlaying :=
  { title := "Track A"
    artist := "Artist"
    album := "Album"
    album_art_url := none
    is_playing := true
    progress_ms := 0
    duration_ms := 180000 }

/-- A second concrete playing snapshot, distinct from `sampleTrackA`. -/
def sampleTrackB : NowPlaying :=
  { title := "Track B"
    artist := "Artist"
    album := "Album"
    album_art_url := none
    is_playing := true
    progress_ms := 0
    duration_ms := 200000 }

/-- A concrete configured client configuration. -/
def sampleConfig : ClientConfig :=
  { client_id := "a1b2c3"
    redirect_uri := "http://127.0.0.1:8897/callback"
    poll_interval_ms := 1000 }

/-- A concrete configured client state. -/
def sampleClient : ClientState :=
  mkSpotifyClient sampleConfig true

/-- A concrete snapshot that is not playing. -/
def samplePaused : NowPlaying :=
  { sampleTrackA with is_playing := false }

/-- A concrete configuration with no client id. -/
def emptyIdConfig : ClientConfig :=
  { client_id := ""
    redirect_uri := "http://127.0.0.1:8897/callback"
    poll_interval_ms := 500 }

/-- C1: the polling loop emits `now_playing_updated` exactly when the freshly
fetched state differs by value equality (including the `None` sentinel) from
the last emitted state and then updates the last emitted state; consecutive
value-equal fetch results never cause a repeat emission; and the fetch
sequence `[some X, some X, none, some Y]` from an unset last state produces
exactly the three emissions `some X`, `none`, `some Y`. -/
theorem poll_emits_iff_changed (iv : ℚ) :
    (∀ last fetched fs,
      (runPollingLoop true iv last (fetched :: fs)).1 =
        (if fetched ≠ last then [fetched] else []) ++
          (runPollingLoop true iv (if fetched ≠ last then fetched else last) fs).1) ∧
    (∀ last fetched fs,
      (runPollingLoop true iv last (fetched :: fetched :: fs)).1 =
        (runPollingLoop true iv last (fetched :: fs)).1) ∧
    (∀ X Y : NowPlaying, X.is_playing = true → Y.is_playing = true → X ≠ Y →
      (runPollingLoop true iv none [some X, some X, none, some Y]).1 =
        [some X, none, some Y]) := by
  refine ⟨fun last fetched fs => ?_, fun last fetched fs => ?_, fun X Y hX hY hXY => ?_⟩
  · simp only [runPollingLoop]
    by_cases h : fetched = last <;> simp [h]
  · by_cases h : fetched = last
    · subst h
      simp [runPollingLoop]
    · simp [runPollingLoop, h]
  · simp [runPollingLoop]

/-- Witness for `poll_emits_iff_changed` at two concrete distinct playing
snapshots. -/
theorem poll_emits_iff_changed_witness :
    (runPollingLoop true 1 none
        [some sampleTrackA, some sampleTrackA, none, some sampleTrackB]).1 =
      [some sampleTrackA, none, some sampleTrackB] :=
  (poll_emits_iff_changed 1).2.2 sampleTrackA sampleTrackB rfl rfl (by decide)

/-- C3: the loop sleeps for the fixed idle interval (2 s) whenever the fetch
result is `none` or not playing, regardless of the configured poll interval,
and otherwise for the configured interval; the configured interval is the
poll-interval config clamped to a 250 ms floor, applied at construction and
on every `on_config_changed`. -/
theorem sleep_idle_backoff :
    (∀ iv, sleepDuration iv none = idle_backoff_seconds) ∧
    (∀ iv s, s.is_playing = false → sleepDuration iv (some s) = idle_backoff_seconds) ∧
    (∀ iv s, s.is_playing = true → sleepDuration iv (some s) = iv) ∧
    (∀ iv last fetched fs,
      (runPollingLoop true iv last (fetched :: fs)).2.2.head? =
        some (sleepDuration iv fetched)) ∧
    (∀ ms, (1 / 4 : ℚ) ≤ clampPollInterval ms) ∧
    (∀ c cache, (mkSpotifyClient c cache).poll_interval = clampPollInterval c.poll_interval_ms) ∧
    (∀ st c, (on_config_changed st c).poll_interval = clampPollInterval c.poll_interval_ms) ∧
    idle_backoff_seconds = 2 := by
  refine ⟨fun iv => rfl, fun iv s h => ?_, fun iv s h => ?_,
    fun iv last fetched fs => ?_, fun ms => le_max_left _ _,
    fun c cache => rfl, fun st c => rfl, rfl⟩
  · simp [sleepDuration, h]
  · simp [sleepDuration, h]
  · simp [runPollingLoop]

/-- Witness for `sleep_idle_backoff`: a paused snapshot sleeps the idle
interval even under a 3 s configured interval, and a playing snapshot sleeps
the configured interval. -/
theorem sleep_idle_backoff_witness :
    sleepDuration 3 (some samplePaused) = idle_backoff_seconds ∧
    sleepDuration 3 (some sampleTrackA) = 3 :=
  ⟨sleep_idle_backoff.2.1 3 samplePaused rfl, sleep_idle_backoff.2.2.1 3 sampleTrackA rfl⟩

/-- C4: `get_current` makes at most 2 attempts; after a `SpotifyException` on
the first attempt the fixed 1 s backoff is slept before anything else; when
both attempts fail it returns `none` (and the model is a total function, so
no exception reaches the caller); a successful retry returns its result. -/
theorem get_current_retry :
    (∀ sp a0 a1, (get_current sp a0 a1).2.1 ≤ 2) ∧
    (∀ a1, ((get_current true FetchOutcome.spotifyError a1).2.2).head? = some 1) ∧
    (∀ a0 a1, a0.isErr = true → a1.isErr = true → (get_current true a0 a1).1 = none) ∧
    (∀ a0 r, a0.isErr = true → (get_current true a0 (FetchOutcome.ok r)).1 = r) := by
  refine ⟨fun sp a0 a1 => ?_, fun a1 => ?_, fun a0 a1 h0 h1 => ?_, fun a0 r h0 => ?_⟩
  · cases sp <;> cases a0 <;> cases a1 <;> simp [get_current, attemptLoop]
  · cases a1 <;> simp [get_current, attemptLoop]
  · cases a0 <;> cases a1 <;> simp_all [get_current, attemptLoop, FetchOutcome.isErr]
  · cases a0 <;> simp_all [get_current, attemptLoop, FetchOutcome.isErr]

/-- Witness for `get_current_retry`: two failing attempts yield `none` with
the 1 s backoff slept first, and a successful retry returns its result. -/
theorem get_current_retry_witness :
    (get_current true FetchOutcome.spotifyError FetchOutcome.spotifyError).1 = none ∧
    ((get_current true FetchOutcome.spotifyError FetchOutcome.spotifyError).2.2).head? =
      some 1 ∧
    (get_current true FetchOutcome.spotifyError (FetchOutcome.ok (some sampleTrackA))).1 =
      some sampleTrackA :=
  ⟨get_current_retry.2.2.1 FetchOutcome.spotifyError FetchOutcome.spotifyError rfl rfl,
    get_current_retry.2.1 FetchOutcome.spotifyError,
    get_current_retry.2.2.2 FetchOutcome.spotifyError (some sampleTrackA) rfl⟩

/-- C5: on an initialized client, `relogin` emits exactly one
`clear_ui_requested`, resets the last-known state to unset, restarts the
loop, and in the combined emission stream the `clear_ui_requested` precedes
every `now_playing_updated` of the restarted loop, whose first emission
reflects a fresh fetch against an unset last state. -/
theorem relogin_resets_state (st : ClientState) (h : st.sp = true) :
    (relogin st).2 = [Emission.clearUiRequested] ∧
    (relogin st).1.last_state = none ∧
    (relogin st).1.running = true ∧
    (relogin st).1.cache_exists = false ∧
    (∀ fetches, reloginThenPoll st fetches =
      Emission.clearUiRequested ::
        (runPollingLoop true (relogin st).1.poll_interval none fetches).1.map
          Emission.nowPlayingUpdated) ∧
    (∀ fetches, (reloginThenPoll st fetches).count Emission.clearUiRequested = 1) := by
  have hcount : ∀ l : List (Option NowPlaying),
      (l.map Emission.nowPlayingUpdated).count Emission.clearUiRequested = 0 := by
    intro l
    refine List.count_eq_zero.mpr ?_
    simp [List.mem_map]
  refine ⟨?_, ?_, ?_, ?_, fun fetches => ?_, fun fetches => ?_⟩ <;>
    simp [relogin, stop, start_polling, reloginThenPoll, h, hcount]

/-- Witness for `relogin_resets_state` at a concrete configured client. -/
theorem relogin_resets_state_witness :
    (relogin sampleClient).2 = [Emission.clearUiRequested] ∧
    (relogin sampleClient).1.last_state = none ∧
    reloginThenPoll sampleClient [some sampleTrackA] =
      [Emission.clearUiRequested, Emission.nowPlayingUpdated (some sampleTrackA)] := by
  have h := relogin_resets_state sampleClient (by decide)
  exact ⟨h.1, h.2.1, (h.2.2.2.2.1 [some sampleTrackA]).trans (by decide)⟩

/-- C8: `start_polling` is idempotent — calling it twice results in the same
state as calling it once, and from a non-running configured state the two
calls start exactly one loop thread. -/
theorem start_polling_idempotent :
    (∀ st, start_polling (start_polling st) = start_polling st) ∧
    (∀ st, st.sp = true → st.running = false →
      (start_polling (start_polling st)).threads_started = st.threads_started + 1 ∧
      (start_polling (start_polling st)).running = true) := by
  constructor
  · intro st
    by_cases h1 : st.sp = false
    · simp [start_polling, h1]
    · by_cases h2 : st.running <;> simp [start_polling, h1, h2]
  · intro st h1 h2
    simp [start_polling, h1, h2]

/-- Witness for `start_polling_idempotent` at a concrete configured,
non-running client. -/
theorem start_polling_idempotent_witness :
    start_polling (start_polling sampleClient) = start_polling sampleClient ∧
    (start_polling (start_polling sampleClient)).threads_started =
      sampleClient.threads_started + 1 :=
  ⟨start_polling_idempotent.1 sampleClient,
    (start_polling_idempotent.2 sampleClient (by decide) (by decide)).1⟩

/-- C9: with no client id, the constructed client has no remote client,
`start_polling` is a refusing no-op (no loop started, no thread created, and
the embedded call is total, so nothing is raised), and `is_configured`
reports `false`. -/
theorem unconfigured_refuses_start (c : ClientConfig) (cache : Bool)
    (h : c.client_id = "") :
    (mkSpotifyClient c cache).sp = false ∧
    start_polling (mkSpotifyClient c cache) = mkSpotifyClient c cache ∧
    is_configured (mkSpotifyClient c cache) = false ∧
    (start_polling (mkSpotifyClient c cache)).running = false ∧
    (start_polling (mkSpotifyClient c cache)).threads_started = 0 := by
  simp [mkSpotifyClient, start_polling, is_configured, h]

/-- Witness for `unconfigured_refuses_start` at a concrete empty-id
configuration. -/
theorem unconfigured_refuses_start_witness :
    (mkSpotifyClient emptyIdConfig true).sp = false ∧
    start_polling (mkSpotifyClient emptyIdConfig true) = mkSpotifyClient emptyIdConfig true ∧
    is_configured (mkSpotifyClient emptyIdConfig true) = false ∧
    (start_polling (mkSpotifyClient emptyIdConfig true)).running = false ∧
    (start_polling (mkSpotifyClient emptyIdConfig true)).threads_started = 0 :=
  unconfigured_refuses_start emptyIdConfig true rfl

/-! ## Hotkey manager (`overlay/core/hotkey_manager.py`) -/

/-- A pynput key object as `HotkeyManager` uses it: either a member of the
`keyboard.Key` enum (looked up by name) or a `keyboard.KeyCode` built with
`from_char`. -/
inductive PKey where
  | named (s : String)
  | char (c : Char)
  deriving DecidableEq, Repr

/-- The runtime state of a `HotkeyManager`: the configured hotkey string
(`config.ui.hotkey`), `_target_keys`, `_current_keys`, and whether a pynput
listener thread is running. -/
structure HotkeyManagerState where
  hotkey : String
  target : Finset PKey
  current : Finset PKey
  listener_running : Bool

/-- `HotkeyManager._on_press`: add the key to `_current_keys`, then emit
`hotkey_triggered` iff `_current_keys == _target_keys`.  The `Bool` is
whether the signal was emitted. -/
def on_press (st : HotkeyManagerState) (k : PKey) : HotkeyManagerState × Bool :=
  let cur := insert k st.current
  ({ st with current := cur }, decide (cur = st.target))

/-- `HotkeyManager._on_release`: discard the key from `_current_keys`; never
emits. -/
def on_release (st : HotkeyManagerState) (k : PKey) : HotkeyManagerState × Bool :=
  ({ st with current := st.current.erase k }, false)

/-- A raw keyboard event delivered by the pynput hook. -/
inductive KeyEvent where
  | press (k : PKey)
  | release (k : PKey)
  deriving DecidableEq, Repr

/-- Dispatch one raw keyboard event to the matching callback. -/
def hkStep (st : HotkeyManagerState) : KeyEvent → HotkeyManagerState × Bool
  | .press k => on_press st k
  | .release k => on_release st k

/-- Run the listener callbacks over a sequence of raw keyboard events,
collecting for each event whether `hotkey_triggered` was emitted. -/
def hkRun (st : HotkeyManagerState) : List KeyEvent → List Bool
  | [] => []
  | e :: es => (hkStep st e).2 :: hkRun (hkStep st e).1 es

/-- C2: the listener fires exactly when a key-down makes the held-keys set
equal to the target set; key-downs insert and key-ups remove; a held set
that is a strict superset of the target never fires; and with target
`{A, B}` the sequence press A, press C, release C, press B fires only on the
last event, when the held set becomes exactly `{A, B}`. -/
theorem hotkey_exact_match :
    (∀ st e, (hkStep st e).2 = true ↔
      ∃ k, e = KeyEvent.press k ∧ insert k st.current = st.target) ∧
    (∀ st k, (on_press st k).1.current = insert k st.current) ∧
    (∀ st k, (on_release st k).1.current = st.current.erase k) ∧
    (∀ st k, st.target ⊂ insert k st.current → (on_press st k).2 = false) ∧
    (∀ (A B C : PKey), A ≠ B → A ≠ C → B ≠ C → ∀ hk r,
      hkRun ⟨hk, {A, B}, ∅, r⟩
        [KeyEvent.press A, KeyEvent.press C, KeyEvent.release C, KeyEvent.press B] =
        [false, false, false, true]) := by
  refine ⟨fun st e => ?_, fun st k => rfl, fun st k => rfl, fun st k h => ?_,
    fun A B C hAB hAC hBC hk r => ?_⟩
  · cases e with
    | press k => simp [hkStep, on_press]
    | release k => simp [hkStep, on_release]
  · simpa [on_press] using h.ne.symm
  · have h3 : (insert C (insert A (∅ : Finset PKey))).erase C = insert A (∅ : Finset PKey) := by
      refine Finset.erase_insert ?_
      simp [Ne.symm hAC]
    have e1 : ({A} : Finset PKey) ≠ {A, B} := by
      intro hc
      have hB : B ∈ ({A} : Finset PKey) := by
        rw [hc]
        simp
      simp at hB
      exact hAB hB.symm
    have e2 : ({C, A} : Finset PKey) ≠ {A, B} := by
      intro hc
      have hC : C ∈ ({A, B} : Finset PKey) := by
        rw [← hc]
        simp
      simp at hC
      rcases hC with hc' | hc'
      · exact hAC hc'.symm
      · exact hBC hc'.symm
    have e4 : ({B, A} : Finset PKey) = {A, B} := Finset.pair_comm B A
    simp only [hkRun, hkStep, on_press, on_release, h3]
    simp [e1, e2, e4]

/-- Witness for `hotkey_exact_match` at three concrete distinct keys, and at
a concrete held set strictly above the target. -/
theorem hotkey_exact_match_witness :
    hkRun ⟨"ctrl+a", {PKey.named "ctrl", PKey.char 'a'}, ∅, true⟩
      [KeyEvent.press (PKey.named "ctrl"), KeyEvent.press (PKey.named "shift"),
        KeyEvent.release (PKey.named "shift"), KeyEvent.press (PKey.char 'a')] =
      [false, false, false, true] ∧
    (on_press ⟨"ctrl", {PKey.named "ctrl"}, {PKey.named "ctrl"}, true⟩ (PKey.char 'a')).2 =
      false :=
  ⟨hotkey_exact_match.2.2.2.2 (PKey.named "ctrl") (PKey.char 'a') (PKey.named "shift")
      (by decide) (by decide) (by decide) "ctrl+a" true,
    hotkey_exact_match.2.2.2.1 ⟨"ctrl", {PKey.named "ctrl"}, {PKey.named "ctrl"}, true⟩
      (PKey.char 'a') (by decide)⟩

/-! ### Hotkey-string parsing

`_parse_hotkey_string` works with Python string operations
(`str.split("+")`, `str.strip()`, `str.lower()`) and the pynput
`keyboard.Key` enum lookup `Key[part]`.  The string operations are embedded
as executable functions on `List Char` (the `.data` of a Lean `String`),
each one a direct translation of the Python method's behaviour. -/

/-- Python `s.split("+")` for the one-character separator `"+"`: splits on
every occurrence, keeping empty pieces. -/
def splitPlus : List Char → List (List Char)
  | [] => [[]]
  | c :: cs =>
    if c = '+' then [] :: splitPlus cs
    else
      match splitPlus cs with
      | [] => [[c]]
      | t :: ts => (c :: t) :: ts

/-- Python `s.strip()`: drop whitespace from both ends. -/
def pyStrip (cs : List Char) : List Char :=
  ((cs.dropWhile Char.isWhitespace).reverse.dropWhile Char.isWhitespace).reverse

/-- Python `s.lower()` on the hotkey tokens (ASCII letters). -/
def pyLower (cs : List Char) : List Char :=
  cs.map Char.toLower

/-- The member names of the pynput `keyboard.Key` enum — the external
library's named special keys, which `Key[part]` looks up. -/
def pynputKeyNames : List String :=
  ["alt", "alt_l", "alt_r", "alt_gr", "backspace", "caps_lock", "cmd",
   "cmd_l", "cmd_r", "ctrl", "ctrl_l", "ctrl_r", "delete", "down", "end",
   "enter", "esc", "f1", "f2", "f3", "f4", "f5", "f6", "f7", "f8", "f9",
   "f10", "f11", "f12", "f13", "f14", "f15", "f16", "f17", "f18", "f19",
   "f20", "home", "insert", "left", "media_next", "media_play_pause",
   "media_previous", "media_volume_down", "media_volume_mute",
   "media_volume_up", "menu", "num_lock", "page_down", "page_up", "pause",
   "print_screen", "right", "scroll_lock", "shift", "shift_l", "shift_r",
   "space", "tab", "up"]

/-- Whether `keyboard.Key[tok]` succeeds, i.e. `tok` names an enum member. -/
def isKeyName (tok : List Char) : Bool :=
  pynputKeyNames.any fun n => n.data == tok

/-- A token is parseable iff it is an enum name or a single character. -/
def validToken (tok : List Char) : Bool :=
  isKeyName tok || tok.length == 1

/-- The `for part in key_parts` loop of `_parse_hotkey_string`: enum lookup
first, then the single-character fallback (`KeyCode.from_char`), and on any
other token return the empty set immediately, discarding what was
accumulated. -/
def parseTokens : List (List Char) → Finset PKey → Finset PKey
  | [], acc => acc
  | tok :: toks, acc =>
    if isKeyName tok then parseTokens toks (insert (PKey.named (String.mk tok)) acc)
    else
      match tok with
      | [c] => parseTokens toks (insert (PKey.char c) acc)
      | _ => ∅

/-- `HotkeyManager._parse_hotkey_string`: empty set for the empty string,
else split on `"+"`, strip and lowercase each part, and run the token
loop. -/
def parse_hotkey_string (s : String) : Finset PKey :=
  if s.data = [] then ∅
  else parseTokens ((splitPlus s.data).map fun p => pyLower (pyStrip p)) ∅

/-- `HotkeyManager.stop_listener`: after it, no listener thread runs. -/
def stop_listener (st : HotkeyManagerState) : HotkeyManagerState :=
  { st with listener_running := false }

/-- `HotkeyManager.start_listener`: stop any existing listener; bail out on
an empty configured hotkey string; parse the string into `_target_keys`;
bail out if parsing yielded the empty set; otherwise start the listener
thread. -/
def start_listener (st : HotkeyManagerState) : HotkeyManagerState :=
  let st1 := stop_listener st
  if st1.hotkey.data = [] then st1
  else
    let tgt := parse_hotkey_string st1.hotkey
    let st2 := { st1 with target := tgt }
    if tgt = ∅ then st2
    else { st2 with listener_running := true }

/-- The lowercase image of a string, character by character. -/
def lowerString (s : String) : String :=
  String.mk (s.data.map Char.toLower)

/-- Characters are equal iff their code points are. -/
theorem char_eq_iff_toNat {c d : Char} : c = d ↔ c.toNat = d.toNat := by
  constructor
  · intro h
    rw [h]
  · intro h
    apply Char.eq_of_val_eq
    apply UInt32.eq_of_toBitVec_eq
    exact BitVec.eq_of_toNat_eq h

/-- `Char.toLower` on code points: shift the ASCII uppercase range by 32. -/
def natLower (n : Nat) : Nat :=
  if 65 ≤ n ∧ n ≤ 90 then n + 32 else n

theorem toNat_toLower (c : Char) : (Char.toLower c).toNat = natLower c.toNat := by
  unfold Char.toLower natLower
  split
  · next h =>
    rw [if_pos (by omega)]
    have hv : (c.toNat + 32).isValidChar := Or.inl (by omega)
    unfold Char.ofNat
    rw [dif_pos hv]
    simp [Char.ofNatAux, Char.toNat, UInt32.toNat]
  · next h =>
    rw [if_neg (by omega)]

/-- Lowercasing cannot produce a character below the uppercase range, so
equality with such a character is unaffected by it. -/
theorem toLower_eq_nonletter (c d : Char) (hd : d.toNat < 65) :
    Char.toLower c = d ↔ c = d := by
  rw [char_eq_iff_toNat, char_eq_iff_toNat (c := c), toNat_toLower]
  unfold natLower
  split <;> omega

theorem isWhitespace_toLower (c : Char) :
    (Char.toLower c).isWhitespace = c.isWhitespace := by
  simp only [Char.isWhitespace]
  rw [decide_eq_decide.mpr (toLower_eq_nonletter c ' ' (by decide)),
    decide_eq_decide.mpr (toLower_eq_nonletter c '\t' (by decide)),
    decide_eq_decide.mpr (toLower_eq_nonletter c '\r' (by decide)),
    decide_eq_decide.mpr (toLower_eq_nonletter c '\n' (by decide))]

theorem natLower_idem (n : Nat) : natLower (natLower n) = natLower n := by
  unfold natLower
  by_cases h : 65 ≤ n ∧ n ≤ 90
  · rw [if_pos h, if_neg (by omega)]
  · rw [if_neg h, if_neg h]

theorem toLower_idem (c : Char) : Char.toLower (Char.toLower c) = Char.toLower c := by
  rw [char_eq_iff_toNat, toNat_toLower (Char.toLower c), toNat_toLower c]
  exact natLower_idem c.toNat

theorem toLower_plus_iff (c : Char) : Char.toLower c = '+' ↔ c = '+' :=
  toLower_eq_nonletter c '+' (by decide)

theorem splitPlus_ne_nil (cs : List Char) : splitPlus cs ≠ [] := by
  cases cs with
  | nil => simp [splitPlus]
  | cons c cs =>
    unfold splitPlus
    split
    · simp
    · split <;> simp

/-- Splitting on `'+'` commutes with lowercasing, since `'+'` is fixed by
`toLower` and nothing lowercases to `'+'`. -/
theorem splitPlus_map_toLower (cs : List Char) :
    splitPlus (cs.map Char.toLower) = (splitPlus cs).map (List.map Char.toLower) := by
  induction cs with
  | nil => rfl
  | cons c cs ih =>
    by_cases h : c = '+'
    · subst h
      have hl : Char.toLower '+' = '+' := by decide
      simp [splitPlus, hl, ih]
    · have h2 : Char.toLower c ≠ '+' := fun hc => h ((toLower_plus_iff c).mp hc)
      rcases hsp : splitPlus cs with _ | ⟨t, ts⟩
      · exact absurd hsp (splitPlus_ne_nil cs)
      · simp [splitPlus, h, h2, ih, hsp]

/-- Stripping whitespace commutes with lowercasing. -/
theorem pyStrip_map_toLower (cs : List Char) :
    pyStrip (cs.map Char.toLower) = (pyStrip cs).map Char.toLower := by
  have hw : (Char.isWhitespace ∘ Char.toLower) = Char.isWhitespace :=
    funext isWhitespace_toLower
  unfold pyStrip
  rw [List.dropWhile_map, hw, ← List.map_reverse, List.dropWhile_map, hw, ← List.map_reverse]

theorem pyLower_map_toLower (cs : List Char) :
    pyLower (cs.map Char.toLower) = pyLower cs := by
  unfold pyLower
  rw [List.map_map]
  exact congrFun (congrArg List.map (funext toLower_idem)) cs

/-- An unparseable token anywhere in the list makes the whole parse yield
the empty set, whatever was accumulated before it. -/
theorem parseTokens_invalid (toks : List (List Char)) (acc : Finset PKey)
    (h : ∃ t ∈ toks, validToken t = false) : parseTokens toks acc = ∅ := by
  induction toks generalizing acc with
  | nil => simp at h
  | cons tok toks ih =>
    rcases h with ⟨t, ht, hv⟩
    rcases List.mem_cons.mp ht with rfl | hmem
    · rw [validToken, Bool.or_eq_false_iff] at hv
      unfold parseTokens
      rw [if_neg (by simp [hv.1])]
      rcases t with _ | ⟨c, _ | ⟨c2, rest⟩⟩
      · rfl
      · exact absurd hv.2 (by simp)
      · rfl
    · unfold parseTokens
      by_cases hk : isKeyName tok
      · rw [if_pos hk]
        exact ih _ ⟨t, hmem, hv⟩
      · rw [if_neg hk]
        rcases tok with _ | ⟨c, _ | ⟨c2, rest⟩⟩
        · rfl
        · exact ih _ ⟨t, hmem, hv⟩
        · rfl

/-- Hotkey parsing only sees the lowercase image of its input. -/
theorem parse_hotkey_string_lower (s : String) :
    parse_hotkey_string (lowerString s) = parse_hotkey_string s := by
  cases s with
  | mk l =>
    show parse_hotkey_string (String.mk (l.map Char.toLower)) = parse_hotkey_string (String.mk l)
    unfold parse_hotkey_string
    by_cases h : l = []
    · subst h
      rfl
    · rw [if_neg (by simpa using h), if_neg (by simpa using h)]
      show parseTokens ((splitPlus (l.map Char.toLower)).map fun p => pyLower (pyStrip p)) ∅ = _
      rw [splitPlus_map_toLower, List.map_map]
      congr 1
      refine List.map_congr_left fun p _ => ?_
      show pyLower (pyStrip (p.map Char.toLower)) = pyLower (pyStrip p)
      rw [pyStrip_map_toLower, pyLower_map_toLower]

/-- C6: hotkey parsing is deterministic (a function) and case-insensitive; a
single unparseable token yields the empty set, which disables the
dispatcher (`start_listener` starts no listener); `"ctrl+shift+f7"` parses
to a 3-element target set and `"ctrl+@@"` to the empty set. -/
theorem hotkey_parsing_sound :
    (∀ s, parse_hotkey_string (lowerString s) = parse_hotkey_string s) ∧
    (∀ s, (∃ t ∈ (splitPlus s.data).map fun p => pyLower (pyStrip p),
        validToken t = false) → parse_hotkey_string s = ∅) ∧
    (parse_hotkey_string "ctrl+shift+f7" =
      {PKey.named "ctrl", PKey.named "shift", PKey.named "f7"}) ∧
    (parse_hotkey_string "ctrl+shift+f7").card = 3 ∧
    parse_hotkey_string "ctrl+@@" = ∅ ∧
    (∀ st, parse_hotkey_string st.hotkey = ∅ →
      (start_listener st).listener_running = false) := by
  refine ⟨parse_hotkey_string_lower, fun s h => ?_, by decide, by decide, by decide,
    fun st h => ?_⟩
  · unfold parse_hotkey_string
    split
    · rfl
    · exact parseTokens_invalid _ _ h
  · unfold start_listener stop_listener
    by_cases he : st.hotkey.data = []
    · simp [he]
    · simp [he, h]

/-- Witness for `hotkey_parsing_sound` at the concrete strings of the
specification scenario. -/
theorem hotkey_parsing_sound_witness :
    parse_hotkey_string (lowerString "CTRL+SHIFT+F7") = parse_hotkey_string "CTRL+SHIFT+F7" ∧
    parse_hotkey_string "alt+F13+oops" = ∅ ∧
    parse_hotkey_string "ctrl+@@" = ∅ ∧
    (start_listener ⟨"ctrl+@@", ∅, ∅, false⟩).listener_running = false :=
  ⟨hotkey_parsing_sound.1 "CTRL+SHIFT+F7",
    hotkey_parsing_sound.2.1 "alt+F13+oops" (by decide),
    hotkey_parsing_sound.2.2.2.2.1,
    hotkey_parsing_sound.2.2.2.2.2 ⟨"ctrl+@@", ∅, ∅, false⟩
      hotkey_parsing_sound.2.2.2.2.1⟩

/-! ## IPC listener (`overlay/core/ipc_listener.py`)

The `_run` accept loop and the `stop` caller share the `_running` flag.  A
concrete execution is modelled by the interleaved sequence of things the
blocked `accept()` observes: a connection arriving (`conn`), the 1 s accept
timeout elapsing (`timeout`), or the `stop()` caller writing
`_running = False` while the loop is blocked (`stopSignal`).  The loop body
translates each observation exactly as the Python code does: a connection is
accepted and closed, and `toggle_visibility_requested` is emitted only if
the re-checked `_running` flag is still true; when the flag is false the
`while` condition exits the loop and later observations reach nobody. -/

/-- One thing the accept loop observes. -/
inductive LoopEvent where
  | conn
  | timeout
  | stopSignal
  deriving DecidableEq, Repr

/-- The externally visible primitive actions of `IpcListener`, in program
order.  `joinThread`/`setAcceptTimeout` carry their timeout argument in
seconds. -/
inductive IpcAction where
  | removeStaleFile
  | bindSocket
  | listenSocket
  | setAcceptTimeout (seconds : ℚ)
  | acceptConnection
  | closeConnection
  | emitToggle
  | selfConnect
  | joinThread (timeout_seconds : ℚ)
  | closeServer
  | removeSocketFile
  deriving DecidableEq, Repr

/-- The `while self._running` body of `IpcListener._run`, translated per
observation: on `conn`, accept and close, then emit only if `_running` is
still true — if it is false, the loop exits right after and the remaining
observations produce nothing; on `timeout`, loop again or exit; on
`stopSignal`, continue with the flag false. -/
def ipcLoopActions : Bool → List LoopEvent → List IpcAction
  | _, [] => []
  | _, .stopSignal :: es => ipcLoopActions false es
  | r, .conn :: es =>
    if r then
      IpcAction.acceptConnection :: IpcAction.closeConnection :: IpcAction.emitToggle ::
        ipcLoopActions r es
    else [IpcAction.acceptConnection, IpcAction.closeConnection]
  | r, .timeout :: es => if r then ipcLoopActions r es else []

/-- `IpcListener._run`: bind, listen, set the 1 s accept timeout, run the
loop, and in the `finally` block close the server and remove the socket
file. -/
def ipcRunActions (events : List LoopEvent) : List IpcAction :=
  IpcAction.bindSocket :: IpcAction.listenSocket :: IpcAction.setAcceptTimeout 1 ::
    (ipcLoopActions true events ++ [IpcAction.closeServer, IpcAction.removeSocketFile])

/-- `IpcListener.__init__`: remove any stale socket file left by a previous
crashed run, before anything else happens. -/
def mkIpcListener (stale_file_exists : Bool) : List IpcAction :=
  if stale_file_exists then [IpcAction.removeStaleFile] else []

/-- Construction followed by `start()` running the accept loop to
completion: the full action trace of one listener lifetime. -/
def ipcLifecycle (stale_file_exists : Bool) (events : List LoopEvent) : List IpcAction :=
  mkIpcListener stale_file_exists ++ ipcRunActions events

/-- The caller-side state `IpcListener.stop` touches. -/
structure IpcState where
  running : Bool
  deriving DecidableEq, Repr

/-- `IpcListener.stop`: when running, clear the flag, self-connect to the
socket to unblock a pending `accept()`, and join the listener thread with a
2 s timeout; otherwise do nothing. -/
def ipc_stop (st : IpcState) : IpcState × List IpcAction :=
  if st.running then
    ({ running := false }, [IpcAction.selfConnect, IpcAction.joinThread 2])
  else (st, [])

/-- Once the `_running` flag is false the loop emits nothing more: at most
one already-blocked accept completes, and its connection is discarded. -/
theorem ipcLoopActions_stopped_no_emit (es : List LoopEvent) :
    (ipcLoopActions false es).count IpcAction.emitToggle = 0 := by
  induction es with
  | nil => rfl
  | cons e es ih =>
    cases e with
    | conn => simp [ipcLoopActions]
    | timeout => simp [ipcLoopActions]
    | stopSignal => simpa [ipcLoopActions] using ih

/-- C10: observations after the stop-flag write — including the
self-connection `stop()` makes to unblock `accept()` — contribute no
`toggle_visibility_requested` emission: the emission count of any trace is
that of its prefix up to the stop signal. -/
theorem no_toggle_after_stop (r : Bool) (es1 es2 : List LoopEvent) :
    (ipcLoopActions r (es1 ++ LoopEvent.stopSignal :: es2)).count IpcAction.emitToggle =
      (ipcLoopActions r (es1 ++ [LoopEvent.stopSignal])).count IpcAction.emitToggle := by
  induction es1 generalizing r with
  | nil =>
    simp only [List.nil_append, ipcLoopActions]
    rw [ipcLoopActions_stopped_no_emit]
    rfl
  | cons e es1 ih =>
    cases e with
    | conn =>
      cases r with
      | false => rfl
      | true => simp [ipcLoopActions, ih]
    | timeout =>
      cases r with
      | false => rfl
      | true => simpa [ipcLoopActions] using ih true
    | stopSignal =>
      simp only [List.cons_append, ipcLoopActions]
      rw [ipcLoopActions_stopped_no_emit, ipcLoopActions_stopped_no_emit]

/-- C7: `stop()` on a running listener clears the flag, unblocks the pending
accept by self-connecting, and joins the thread with the bounded 2 s
timeout; the run loop's shutdown path always closes the server and then
removes the socket file, whatever the loop observed; and in a lifecycle that
starts with a stale socket file, the stale file is removed before the bind
and the listener's own file is removed at the very end. -/
theorem ipc_stop_bounded_cleanup :
    (∀ st : IpcState, st.running = true →
      (ipc_stop st).2 = [IpcAction.selfConnect, IpcAction.joinThread 2] ∧
      (ipc_stop st).1.running = false) ∧
    (∀ events, ∃ t, ipcRunActions events =
      t ++ [IpcAction.closeServer, IpcAction.removeSocketFile]) ∧
    (∀ events, ipcLifecycle true events =
      IpcAction.removeStaleFile :: IpcAction.bindSocket :: IpcAction.listenSocket ::
        IpcAction.setAcceptTimeout 1 ::
          (ipcLoopActions true events ++
            [IpcAction.closeServer, IpcAction.removeSocketFile])) := by
  refine ⟨fun st h => ?_, fun events => ?_, fun events => rfl⟩
  · simp [ipc_stop, h]
  · exact ⟨IpcAction.bindSocket :: IpcAction.listenSocket :: IpcAction.setAcceptTimeout 1 ::
      ipcLoopActions true events, by simp [ipcRunActions]⟩

/-- Witness for `ipc_stop_bounded_cleanup` on a running listener. -/
theorem ipc_stop_bounded_cleanup_witness :
    (ipc_stop ⟨true⟩).2 = [IpcAction.selfConnect, IpcAction.joinThread 2] ∧
    (ipc_stop ⟨true⟩).1.running = false :=
  ipc_stop_bounded_cleanup.1 ⟨true⟩ rfl

end Spoverlay
